import Mathlib

/-!
Verification of the market-data derivation core of counterblockd, as implemented
in src/lib/api.py. The development shallowly embeds the pure computational
content of the API functions: price synthesis, 24-hour volume aggregation,
fee-aware order-book construction, market-cap derivation, and the asset-history
replay, together with the merge of the external callback feed. External
services (MongoDB, the counterpartyd JSON-RPC API, insight) are modelled by
passing their record sets in as explicit lists; their documented query
semantics (filter, sort, limit, group) are embedded directly.

Python decimal arithmetic is modelled with rationals, with the ubiquitous
quantization to 8 fractional digits under ROUND_HALF_EVEN embedded as an
explicit rounding function. Python assertions and uncaught exceptions are
modelled with Except results.
-/

set_option allowUnsafeReducibility true in
attribute [semireducible] Rat.mul Rat.add Rat.inv Rat.sub Rat.neg

namespace CW

instance {ε α : Type} [DecidableEq ε] [DecidableEq α] : DecidableEq (Except ε α) :=
  fun a b =>
    match a, b with
    | .ok x, .ok y =>
        if h : x = y then isTrue (by rw [h]) else isFalse (fun hh => h (Except.ok.inj hh))
    | .error x, .error y =>
        if h : x = y then isTrue (by rw [h]) else isFalse (fun hh => h (Except.error.inj hh))
    | .ok _, .error _ => isFalse (fun hh => Except.noConfusion hh)
    | .error _, .ok _ => isFalse (fun hh => Except.noConfusion hh)

/-- Floor of a rational, written so that the kernel can evaluate it on
concrete inputs. It agrees with the mathematical floor, see rfloor_eq. -/
def rfloor (q : ℚ) : ℤ := q.num / q.den

/-- Rounding of a rational to the nearest integer with ties going to the even
integer. This models one step of Python decimal quantization with rounding
mode ROUND_HALF_EVEN. -/
def roundHalfEvenInt (q : ℚ) : ℤ :=
  if q - rfloor q < 1/2 then rfloor q
  else if 1/2 < q - rfloor q then rfloor q + 1
  else if rfloor q % 2 = 0 then rfloor q else rfloor q + 1

/-- Quantization of a rational to 8 fractional digits, round half to even.
This models the pervasive source idiom
float(D(x).quantize(D(eight places), rounding=decimal.ROUND_HALF_EVEN)). -/
def quantize8 (q : ℚ) : ℚ :=
  (roundHalfEvenInt (q * 100000000) : ℚ) / 100000000

/-- Trade record, as stored in the trades collection and consumed by the
market-data code. Block times are modelled as natural epoch timestamps. -/
structure Trade where
  baseAsset : String
  quoteAsset : String
  blockIndex : ℕ
  blockTime : ℕ
  unitPrice : ℚ
  baseQuantityNormalized : ℚ
  quoteQuantityNormalized : ℚ
deriving DecidableEq

/-- Modelled from the spec: util.assets_to_asset_pair is not part of the
source under verification (lib/util.py is absent); per the Pair Canonicalizer
section, the reference assets always act as base over other assets, and
otherwise the lexicographically smaller name is the base. The first argument
wins when both are reference assets, matching the source comment that the
XCP/BTC direction is the canonical one queried by get_market_info. -/
def assetsToAssetPair (asset1 asset2 : String) : String × String :=
  if asset1 = "XCP" ∨ asset1 = "BTC" then (asset1, asset2)
  else if asset2 = "XCP" ∨ asset2 = "BTC" then (asset2, asset1)
  else if asset1 < asset2 then (asset1, asset2) else (asset2, asset1)

/-- Modelled from the spec: util.normalize_quantity (lib/util.py is absent).
Per the glossary, a normalized quantity is the raw integer ledger quantity
scaled down by 100 million when the asset is divisible, and the raw quantity
itself otherwise. -/
def normalizeQuantity (q : ℤ) (divisible : Bool) : ℚ :=
  if divisible then (q : ℚ) / 100000000 else (q : ℚ)

/-- Modelled from the spec: util.denormalize_quantity (lib/util.py is absent),
the inverse scaling of normalizeQuantity for a divisible asset such as BTC. -/
def denormalizeQuantity (q : ℚ) : ℚ := q * 100000000

/-- The fixed six-element weight table MARKET_PRICE_DERIVE_WEIGHTS. -/
def marketPriceDeriveWeights : List ℚ := [1, 9/10, 72/100, 6/10, 4/10, 3/10]

/-- Modelled from the spec: util.weighted_average (lib/util.py is absent).
The market price is the weighted average of the unit prices in the weighted
inputs: the sum of value times weight divided by the sum of the weights. -/
def weightedAverage (inputs : List (ℚ × ℚ)) : ℚ :=
  (inputs.map fun p => p.1 * p.2).sum / (inputs.map fun p => p.2).sum

/-- Trades of the given canonical pair whose block time lies in the lookback
window, i.e. the mongo find filter in _get_market_price_summary. -/
def windowTrades (trades : List Trade) (base quote : String) (minTradeTime : ℕ) :
    List Trade :=
  trades.filter fun t =>
    decide (t.baseAsset = base) && decide (t.quoteAsset = quote) &&
      decide (minTradeTime ≤ t.blockTime)

/-- Relation ordering trades newest first by block time, the sort direction
of the mongo query in _get_market_price_summary. -/
def tradeNewer (a b : Trade) : Prop := b.blockTime ≤ a.blockTime

instance : DecidableRel tradeNewer :=
  fun a b => inferInstanceAs (Decidable (b.blockTime ≤ a.blockTime))

instance : IsTotal Trade tradeNewer :=
  ⟨fun a b => le_total b.blockTime a.blockTime⟩

instance : IsTrans Trade tradeNewer :=
  ⟨fun _ _ _ h1 h2 => le_trans h2 h1⟩

/-- Row of the optional last_trades payload: block_time, unit_price,
base_quantity_normalized, quote_quantity_normalized, block_index. -/
def tradeRow (t : Trade) : ℕ × ℚ × ℚ × ℚ × ℕ :=
  (t.blockTime, t.unitPrice, t.baseQuantityNormalized, t.quoteQuantityNormalized,
    t.blockIndex)

/-- Result payload of _get_market_price_summary when trade data exists. -/
structure PriceSummary where
  marketPrice : ℚ
  baseAsset : String
  quoteAsset : String
  lastTrades : Option (List (ℕ × ℚ × ℚ × ℚ × ℕ))
deriving DecidableEq

/-- Embedding of _get_market_price_summary. The registry argument stands for
the tracked_assets collection (only existence of the records matters here),
trades for the trades collection, and minTradeTime for the utcnow-minus-ten-
days cutoff. A result of ok none is the explicit no-data sentinel that
get_market_price_summary surfaces to its caller as False; errors model the
raised exceptions. The mongo cursor count used for the no-data test ignores
the limit, so the test is on the whole filtered set. -/
def marketPriceSummary (registry : List String) (trades : List Trade)
    (asset1 asset2 : String) (minTradeTime : ℕ) (withLastTrades : ℕ) :
    Except String (Option PriceSummary) :=
  let base := (assetsToAssetPair asset1 asset2).1
  let quote := (assetsToAssetPair asset1 asset2).2
  if 30 < withLastTrades then .error "Invalid with_last_trades"
  else if ¬ (base ∈ registry ∧ quote ∈ registry) then .error "Invalid assets"
  else
    let filtered := windowTrades trades base quote minTradeTime
    if filtered = [] then .ok none
    else
      let sel := (filtered.insertionSort tradeNewer).take (max 6 withLastTrades)
      let lastTrades := sel.reverse
      let weightedInputs := (lastTrades.map Trade.unitPrice).zip marketPriceDeriveWeights
      let marketPrice := quantize8 (weightedAverage weightedInputs)
      .ok (some
        { marketPrice := marketPrice
          baseAsset := base
          quoteAsset := quote
          lastTrades :=
            if withLastTrades ≠ 0 then some (lastTrades.map tradeRow) else none })

/-- Mongo semantics of a group-stage sum operand, as used by the 24-hour
volume aggregations of get_market_info: a string operand beginning with a
dollar sign references the named document field, while any other string is a
constant expression, and summing a non-numeric constant contributes nothing.
The two field names appearing in the source are the only ones embedded. -/
def mongoSumOperand (docs : List Trade) (operand : String) : ℚ :=
  if operand = "$base_quantity_normalized" then
    (docs.map Trade.baseQuantityNormalized).sum
  else if operand = "$quote_quantity_normalized" then
    (docs.map Trade.quoteQuantityNormalized).sum
  else 0

/-- Trades of the last day in which the asset is the base asset, i.e. the
match stage of the _24h_vols_as_base aggregation. -/
def tradesAsBase (trades : List Trade) (asset : String) (startDt1d : ℕ) :
    List Trade :=
  trades.filter fun t => decide (t.baseAsset = asset) && decide (startDt1d ≤ t.blockTime)

/-- Trades of the last day in which the asset is the quote asset, i.e. the
match stage of the _24h_vols_as_quote aggregation. -/
def tradesAsQuote (trades : List Trade) (asset : String) (startDt1d : ℕ) :
    List Trade :=
  trades.filter fun t => decide (t.quoteAsset = asset) && decide (startDt1d ≤ t.blockTime)

/-- Embedding of the 24h_summary computation of get_market_info, lines
461 to 495 of src/lib/api.py. Note that the as-quote aggregation sums the
operand string written in the source, which lacks the dollar prefix. -/
def vols24h (trades : List Trade) (asset : String) (startDt1d : ℕ) : ℚ × ℕ :=
  let asBase := tradesAsBase trades asset startDt1d
  let asQuote := tradesAsQuote trades asset startDt1d
  (mongoSumOperand asBase "$base_quantity_normalized" +
     mongoSumOperand asQuote "quote_quantity_normalized",
   asBase.length + asQuote.length)

/-- The 24h_summary computation as the claim states it: the volume is the
base-side sum of base_quantity_normalized plus the quote-side sum of
quote_quantity_normalized, the count the total number of trades of both
sides. Stated for comparison with vols24h. -/
def vols24hClaimed (trades : List Trade) (asset : String) (startDt1d : ℕ) :
    ℚ × ℕ :=
  let asBase := tradesAsBase trades asset startDt1d
  let asQuote := tradesAsQuote trades asset startDt1d
  ((asBase.map Trade.baseQuantityNormalized).sum +
     (asQuote.map Trade.quoteQuantityNormalized).sum,
   asBase.length + asQuote.length)

/-- Embedding of the market_cap_in_xcp and market_cap_in_btc fields of
get_market_info, lines 560 to 564 of src/lib/api.py: the cap is the
normalized total issuance divided by the price, quantized, and is computed
only when the price is truthy in the Python sense, so a missing price and a
zero price both yield an absent market cap. -/
def marketCapIn (totalIssuedNormalized : ℚ) (price : Option ℚ) : Option ℚ :=
  match price with
  | none => none
  | some p => if p = 0 then none else some (quantize8 (totalIssuedNormalized / p))

/-- Tracked-asset registry record, restricted to the fields the embedded
code paths read. -/
structure AssetInfo where
  owner : String
  divisible : Bool
  totalIssued : ℤ
  totalIssuedNormalized : ℚ
deriving DecidableEq

/-- Failure modes of the asset-info prologue of get_market_info: typeError
models the Python TypeError raised by item assignment on None, invalidAsset
the explicitly raised Invalid-asset exception. -/
inductive MarketInfoError where
  | typeError
  | invalidAsset (asset : String)
deriving DecidableEq

/-- Embedding of the asset-info prologue of get_market_info, lines 334 to 345
of src/lib/api.py: the registry record is looked up, then for BTC and for XCP
its issuance fields are overwritten with ledger-wide supply figures before
the record is checked for existence. The bare normalize_quantity calls use
the default divisible flag, hence the fixed scaling. -/
def marketInfoAssetLookup (registry : List (String × AssetInfo)) (asset : String)
    (btcSupply xcpSupply : ℤ) : Except MarketInfoError AssetInfo :=
  let assetInfo := (registry.find? fun p => decide (p.1 = asset)).map Prod.snd
  if asset = "BTC" then
    match assetInfo with
    | none => .error .typeError
    | some a =>
        .ok { a with totalIssued := btcSupply,
                     totalIssuedNormalized := normalizeQuantity btcSupply true }
  else if asset = "XCP" then
    match assetInfo with
    | none => .error .typeError
    | some a =>
        .ok { a with totalIssued := xcpSupply,
                     totalIssuedNormalized := normalizeQuantity xcpSupply true }
  else
    match assetInfo with
    | none => .error (.invalidAsset asset)
    | some a => .ok a

/-- Order record, restricted to the fields the order-book code reads. Fees
are raw ledger quantities, kept rational so they compare directly against
denormalized caller fees. -/
structure Order where
  giveAsset : String
  giveQuantity : ℤ
  getAsset : String
  getQuantity : ℤ
  giveRemaining : ℤ
  getRemaining : ℤ
  feeRequired : ℚ
  feeProvided : ℚ
deriving DecidableEq

/-- One filter clause of a get_orders call, as built by get_order_book. -/
structure FilterClause where
  field : String
  op : String
  value : ℚ
deriving DecidableEq

/-- Modelled from the spec: the filter semantics of the external get_orders
call. A clause with op greater-or-equal keeps orders whose named fee field is
at least the value, one with op less-or-equal keeps those whose field is at
most the value. Only the two fee fields appear in the embedded clauses. -/
def clauseKeeps (o : Order) (c : FilterClause) : Bool :=
  let fieldVal : ℚ :=
    if c.field = "fee_required" then o.feeRequired
    else if c.field = "fee_provided" then o.feeProvided
    else 0
  if c.op = ">=" then decide (c.value ≤ fieldVal)
  else if c.op = "<=" then decide (fieldVal ≤ c.value)
  else false

/-- An order passes a clause list when it passes every clause. -/
def clausesKeep (o : Order) (cs : List FilterClause) : Bool :=
  cs.all (clauseKeeps o)

/-- Embedding of the four-case BTC fee filter of get_order_book, lines 716 to
741 of src/lib/api.py: the extra clauses appended to the bid-book filters
(first component) and ask-book filters (second component), given the
canonical pair and the caller's intent, with the caller's normalized fee
preferences denormalized exactly as in the source. -/
def btcFeeClauses (baseAsset quoteAsset buyAsset sellAsset : String)
    (normalizedFeeProvided normalizedFeeRequired : ℚ) :
    List FilterClause × List FilterClause :=
  if baseAsset = "BTC" then
    if buyAsset = "BTC" then
      ([⟨"fee_required", ">=", denormalizeQuantity normalizedFeeRequired⟩],
       [⟨"fee_provided", ">=", denormalizeQuantity normalizedFeeRequired⟩])
    else if sellAsset = "BTC" then
      ([⟨"fee_required", "<=", denormalizeQuantity normalizedFeeProvided⟩],
       [⟨"fee_provided", ">=", denormalizeQuantity normalizedFeeProvided⟩])
    else ([], [])
  else if quoteAsset = "BTC" then
    if buyAsset = "BTC" then
      ([⟨"fee_provided", ">=", denormalizeQuantity normalizedFeeRequired⟩],
       [⟨"fee_required", ">=", denormalizeQuantity normalizedFeeRequired⟩])
    else if sellAsset = "BTC" then
      ([⟨"fee_provided", ">=", denormalizeQuantity normalizedFeeProvided⟩],
       [⟨"fee_required", "<=", denormalizeQuantity normalizedFeeProvided⟩])
    else ([], [])
  else ([], [])

/-- The fee-matrix property claimed for get_order_book, instantiated at the
four reachable caller intents for a pair of BTC and a non-BTC asset q: for
each case, an order passes the appended bid-book (respectively ask-book)
clauses exactly when its fee field compares as stated against the caller's
denormalized fee. -/
def feeMatrixProp (q : String) (fp fr : ℚ) (o : Order) : Prop :=
  (clausesKeep o (btcFeeClauses "BTC" q "BTC" q fp fr).1 = true ↔
    denormalizeQuantity fr ≤ o.feeRequired) ∧
  (clausesKeep o (btcFeeClauses "BTC" q "BTC" q fp fr).2 = true ↔
    denormalizeQuantity fr ≤ o.feeProvided) ∧
  (clausesKeep o (btcFeeClauses "BTC" q q "BTC" fp fr).1 = true ↔
    o.feeRequired ≤ denormalizeQuantity fp) ∧
  (clausesKeep o (btcFeeClauses "BTC" q q "BTC" fp fr).2 = true ↔
    denormalizeQuantity fp ≤ o.feeProvided) ∧
  (clausesKeep o (btcFeeClauses q "BTC" "BTC" q fp fr).1 = true ↔
    denormalizeQuantity fr ≤ o.feeProvided) ∧
  (clausesKeep o (btcFeeClauses q "BTC" "BTC" q fp fr).2 = true ↔
    denormalizeQuantity fr ≤ o.feeRequired) ∧
  (clausesKeep o (btcFeeClauses q "BTC" q "BTC" fp fr).1 = true ↔
    denormalizeQuantity fp ≤ o.feeProvided) ∧
  (clausesKeep o (btcFeeClauses q "BTC" q "BTC" fp fr).2 = true ↔
    o.feeRequired ≤ denormalizeQuantity fp)

/-- Price level of an order book under construction: unit price, accumulated
base quantity outstanding, and number of orders at the level. -/
structure BookEntry where
  unitPrice : ℚ
  quantity : ℚ
  count : ℕ
deriving DecidableEq

/-- Unit price and remaining base quantity of one order, as computed inside
make_book, lines 760 to 771 of src/lib/api.py. An order giving the base asset
prices at get over give and counts its remaining give side; any other order
prices at give over get and counts its remaining get side. Decimal division
raises on a zero divisor, which the source does not guard against. The
normalized give and get quantities the source also computes are dead locals
and are omitted. -/
def orderEntry (baseAsset : String) (baseDivisible : Bool) (o : Order) :
    Except String (ℚ × ℚ) :=
  if o.giveAsset = baseAsset then
    if o.giveQuantity = 0 then .error "DivisionByZero"
    else .ok (quantize8 ((o.getQuantity : ℚ) / (o.giveQuantity : ℚ)),
              normalizeQuantity o.giveRemaining baseDivisible)
  else
    if o.getQuantity = 0 then .error "DivisionByZero"
    else .ok (quantize8 ((o.giveQuantity : ℚ) / (o.getQuantity : ℚ)),
              normalizeQuantity o.getRemaining baseDivisible)

/-- Fold step of the book dictionary: accumulate a quantity at an existing
price level or append a fresh level, mirroring the setdefault plus in-place
update on the book dict keyed by unit price. -/
def insertOrderLevel : List BookEntry → ℚ → ℚ → List BookEntry
  | [], price, qty => [⟨price, qty, 1⟩]
  | e :: rest, price, qty =>
    if e.unitPrice = price then ⟨e.unitPrice, e.quantity + qty, e.count + 1⟩ :: rest
    else e :: insertOrderLevel rest price qty

/-- The order loop of make_book: fold all orders into the level list,
propagating a division error. -/
def buildBook (baseAsset : String) (baseDivisible : Bool) :
    List Order → List BookEntry → Except String (List BookEntry)
  | [], book => .ok book
  | o :: os, book => do
    let pe ← orderEntry baseAsset baseDivisible o
    buildBook baseAsset baseDivisible os (insertOrderLevel book pe.1 pe.2)

/-- Ascending order on book entries by unit price, the ask-book sort. -/
def priceLE (a b : BookEntry) : Prop := a.unitPrice ≤ b.unitPrice

/-- Descending order on book entries by unit price, the bid-book sort. -/
def priceGE (a b : BookEntry) : Prop := b.unitPrice ≤ a.unitPrice

instance : DecidableRel priceLE :=
  fun a b => inferInstanceAs (Decidable (a.unitPrice ≤ b.unitPrice))

instance : DecidableRel priceGE :=
  fun a b => inferInstanceAs (Decidable (b.unitPrice ≤ a.unitPrice))

instance : IsTotal BookEntry priceLE := ⟨fun a b => le_total a.unitPrice b.unitPrice⟩

instance : IsTotal BookEntry priceGE := ⟨fun a b => le_total b.unitPrice a.unitPrice⟩

instance : IsTrans BookEntry priceLE := ⟨fun _ _ _ h1 h2 => le_trans h1 h2⟩

instance : IsTrans BookEntry priceGE := ⟨fun _ _ _ h1 h2 => le_trans h2 h1⟩

/-- Embedding of make_book, lines 757 to 779 of src/lib/api.py: build the
level dictionary, then sort descending by unit price for a bid book and
ascending for an ask book. -/
def makeBook (orders : List Order) (isBidBook : Bool) (baseAsset : String)
    (baseDivisible : Bool) : Except String (List BookEntry) := do
  let book ← buildBook baseAsset baseDivisible orders []
  .ok (if isBidBook then book.insertionSort priceGE else book.insertionSort priceLE)

/-- Book level as returned: the level with its cumulative depth attached. -/
structure DepthEntry where
  entry : BookEntry
  depth : ℚ
deriving DecidableEq

/-- The depth-composition loops of get_order_book: a running exact
accumulator over level quantities, with each level's displayed depth the
quantized accumulator value. -/
def attachDepth : ℚ → List BookEntry → List DepthEntry
  | _, [] => []
  | acc, e :: rest =>
    ⟨e, quantize8 (acc + e.quantity)⟩ :: attachDepth (acc + e.quantity) rest

/-- Final total depth of one side: the quantized sum of all level quantities. -/
def totalDepth (book : List BookEntry) : ℚ :=
  quantize8 (book.map BookEntry.quantity).sum

/-- Result of get_order_book, restricted to the derived fields (the raw
order echoes and their block-time annotations are plumbing over external
lookups). -/
structure OrderBookResult where
  baseBidBook : List DepthEntry
  baseAskBook : List DepthEntry
  bidDepth : ℚ
  askDepth : ℚ
  bidAskSpread : ℚ
  bidAskMedian : ℚ
deriving DecidableEq

/-- Embedding of the book-assembly part of get_order_book, lines 781 to 825
of src/lib/api.py: build both books, derive spread and median from the best
levels, and attach cumulative depth. -/
def getOrderBook (bidOrders askOrders : List Order) (baseAsset : String)
    (baseDivisible : Bool) : Except String OrderBookResult := do
  let baseBidBook ← makeBook bidOrders true baseAsset baseDivisible
  let baseAskBook ← makeBook askOrders false baseAsset baseDivisible
  let bidAskSpread : ℚ :=
    match baseAskBook, baseBidBook with
    | a :: _, b :: _ => quantize8 (a.unitPrice - b.unitPrice)
    | _, _ => 0
  let bidAskMedian : ℚ :=
    match baseAskBook with
    | a :: _ => quantize8 (a.unitPrice - bidAskSpread / 2)
    | [] => 0
  .ok { baseBidBook := attachDepth 0 baseBidBook
        baseAskBook := attachDepth 0 baseAskBook
        bidDepth := totalDepth baseBidBook
        askDepth := totalDepth baseAskBook
        bidAskSpread := bidAskSpread
        bidAskMedian := bidAskMedian }

/-- Running sums of a list of rationals from a starting accumulator, the
specification-level description of the depth curve. -/
def runningSums : ℚ → List ℚ → List ℚ
  | _, [] => []
  | acc, q :: qs => (acc + q) :: runningSums (acc + q) qs

/-- Bid-book levels are listed in strictly descending unit-price order. -/
def strictDescByPrice (l : List DepthEntry) : Prop :=
  l.Pairwise fun a b => b.entry.unitPrice < a.entry.unitPrice

/-- Ask-book levels are listed in strictly ascending unit-price order. -/
def strictAscByPrice (l : List DepthEntry) : Prop :=
  l.Pairwise fun a b => a.entry.unitPrice < b.entry.unitPrice

/-- The listed depths are exactly the quantized running sums of the listed
level quantities, from the best price outward. -/
def depthCorrect (l : List DepthEntry) : Prop :=
  l.map DepthEntry.depth =
    (runningSums 0 (l.map fun d => d.entry.quantity)).map quantize8

/-- The listed depths never decrease along the traversal order. -/
def depthsMono (l : List DepthEntry) : Prop :=
  l.Chain' fun a b => a.depth ≤ b.depth

/-- The order-book invariants claimed for get_order_book results: strict
sort direction per side, depth as quantized running sums, non-decreasing
depth, and the spread and median formulas with their empty-side defaults. -/
def orderBookProps (res : OrderBookResult) : Prop :=
  strictDescByPrice res.baseBidBook ∧
  strictAscByPrice res.baseAskBook ∧
  depthCorrect res.baseBidBook ∧
  depthCorrect res.baseAskBook ∧
  depthsMono res.baseBidBook ∧
  depthsMono res.baseAskBook ∧
  (match res.baseAskBook, res.baseBidBook with
   | a :: _, b :: _ =>
       res.bidAskSpread = quantize8 (a.entry.unitPrice - b.entry.unitPrice)
   | _, _ => res.bidAskSpread = 0) ∧
  (match res.baseAskBook with
   | a :: _ =>
       res.bidAskMedian = quantize8 (a.entry.unitPrice - res.bidAskSpread / 2)
   | [] => res.bidAskMedian = 0)

/-- Snapshot of a tracked asset's state, an element of the _history list of
the registry record (or the current record itself, appended as the final
snapshot). Block times are natural epoch timestamps in seconds. -/
structure Snapshot where
  owner : String
  description : String
  divisible : Bool
  locked : Bool
  totalIssued : ℤ
  totalIssuedNormalized : ℚ
  changeType : String
  atBlock : ℕ
  atBlockTime : ℕ
deriving DecidableEq

/-- Typed event of the asset-history timeline returned by get_asset_history.
Event times are epoch milliseconds, as produced by the source's
time.mktime(...) times 1000. -/
inductive AssetEvent where
  | created (owner description : String) (divisible locked : Bool)
      (totalIssued : ℤ) (totalIssuedNormalized : ℚ) (atBlock atBlockTime : ℕ)
  | locked (atBlock atBlockTime : ℕ)
  | transferred (prevOwner newOwner : String) (atBlock atBlockTime : ℕ)
  | changedDescription (prevDescription newDescription : String)
      (atBlock atBlockTime : ℕ)
  | issuedMore (additional : ℤ) (additionalNormalized : ℚ) (totalIssued : ℤ)
      (totalIssuedNormalized : ℚ) (atBlock atBlockTime : ℕ)
  | calledBack (percentage : ℚ) (atBlock atBlockTime : ℕ)
deriving DecidableEq

/-- Block at which an event took effect. -/
def AssetEvent.block : AssetEvent → ℕ
  | .created _ _ _ _ _ _ b _ => b
  | .locked b _ => b
  | .transferred _ _ b _ => b
  | .changedDescription _ _ b _ => b
  | .issuedMore _ _ _ _ b _ => b
  | .calledBack _ b _ => b

/-- Diff of one snapshot against its predecessor, lines 894 to 929 of
src/lib/api.py: dispatch on the declared change type, assert the matching
actual diff, and emit the typed event. An assertion failure is an error. -/
def diffStep (prev cur : Snapshot) : Except String AssetEvent :=
  if cur.changeType = "locked" then
    if prev.locked ≠ cur.locked then
      .ok (.locked cur.atBlock (cur.atBlockTime * 1000))
    else .error "assert locked flipped"
  else if cur.changeType = "transferred" then
    if prev.owner ≠ cur.owner then
      .ok (.transferred prev.owner cur.owner cur.atBlock (cur.atBlockTime * 1000))
    else .error "assert owner changed"
  else if cur.changeType = "changed_description" then
    if prev.description ≠ cur.description then
      .ok (.changedDescription prev.description cur.description cur.atBlock
            (cur.atBlockTime * 1000))
    else .error "assert description changed"
  else
    if 0 < cur.totalIssued - prev.totalIssued then
      .ok (.issuedMore (cur.totalIssued - prev.totalIssued)
            (cur.totalIssuedNormalized - prev.totalIssuedNormalized)
            cur.totalIssued cur.totalIssuedNormalized
            cur.atBlock (cur.atBlockTime * 1000))
    else .error "assert issuance increased"

/-- The tail of the replay loop of get_asset_history: diff each snapshot
against its predecessor, oldest to newest. -/
def replayDiffs : Snapshot → List Snapshot → Except String (List AssetEvent)
  | _, [] => .ok []
  | prev, cur :: rest => do
    let e ← diffStep prev cur
    let es ← replayDiffs cur rest
    .ok (e :: es)

/-- The replay loop of get_asset_history, lines 872 to 930 of src/lib/api.py:
the first snapshot must be tagged created and yields the creation event, each
later snapshot is diffed against its predecessor. -/
def composeHistory : List Snapshot → Except String (List AssetEvent)
  | [] => .ok []
  | s :: rest =>
    if s.changeType = "created" then do
      let es ← replayDiffs s rest
      .ok (.created s.owner s.description s.divisible s.locked s.totalIssued
            s.totalIssuedNormalized s.atBlock (s.atBlockTime * 1000) :: es)
    else .error "assert first snapshot created"

/-- Callback event from the external feed, with the block time the source
looks up for the callback's block (the lookup is asserted to succeed). -/
structure Callback where
  fraction : ℚ
  blockIndex : ℕ
  blockTime : ℕ
deriving DecidableEq

/-- Embedding of the callback-merge loop of get_asset_history, lines 936 to
951 of src/lib/api.py, kept exactly as written: for each history event, the
head callback is examined; when it precedes the event a called_back event is
appended and the callback consumed, otherwise the history event is appended.
Examining the head of an exhausted callback list raises IndexError. -/
def mergeCallbacks : List Callback → List AssetEvent → Except String (List AssetEvent)
  | _, [] => .ok []
  | [], _ :: _ => .error "IndexError"
  | c :: ctail, e :: rest =>
    if c.blockIndex < e.block then do
      let out ← mergeCallbacks ctail rest
      .ok (.calledBack (c.fraction * 100) c.blockIndex (c.blockTime * 1000) :: out)
    else do
      let out ← mergeCallbacks (c :: ctail) rest
      .ok (e :: out)

/-- Embedding of get_asset_history, lines 836 to 953 of src/lib/api.py. The
raw argument is the asset's _history list with the current state appended;
callbacks is the externally fetched feed for the asset. The merge loop runs
only when the callback feed is nonempty, and the final timeline is reversed
on request. -/
def getAssetHistory (raw : List Snapshot) (callbacks : List Callback)
    (reverseOrder : Bool) : Except String (List AssetEvent) := do
  let history ← composeHistory raw
  let finalHistory ←
    if callbacks.isEmpty then .ok history else mergeCallbacks callbacks history
  .ok (if reverseOrder then finalHistory.reverse else finalHistory)

/-- A snapshot's declared change type does not match the actual diff against
its predecessor, in the sense of the dispatch of the replay loop: the locked
flag did not flip for a locked tag, the owner did not change for a
transferred tag, the description did not change for a changed_description
tag, and the total issuance did not strictly increase in the default case. -/
def diffMismatch (prev cur : Snapshot) : Bool :=
  if cur.changeType = "locked" then prev.locked == cur.locked
  else if cur.changeType = "transferred" then prev.owner == cur.owner
  else if cur.changeType = "changed_description" then
    prev.description == cur.description
  else decide (cur.totalIssued - prev.totalIssued ≤ 0)

/-- A snapshot log violates its declared change tags: the first snapshot is
not tagged created, or some later snapshot's declared change type does not
match the actual diff against its predecessor. -/
def historyMismatch (raw : List Snapshot) : Bool :=
  (match raw with
   | [] => false
   | s :: _ => decide (s.changeType ≠ "created")) ||
  (raw.zip raw.tail).any fun p => diffMismatch p.1 p.2

/-- Two-snapshot log: creation at block 10, a valid locked change at block 20. -/
def c1Raw : List Snapshot :=
  [{ owner := "alice", description := "d", divisible := true, locked := false,
     totalIssued := 1000, totalIssuedNormalized := 1000/100000000,
     changeType := "created", atBlock := 10, atBlockTime := 10 },
   { owner := "alice", description := "d", divisible := true, locked := true,
     totalIssued := 1000, totalIssuedNormalized := 1000/100000000,
     changeType := "locked", atBlock := 20, atBlockTime := 20 }]

/-- One callback, at a block strictly between the two snapshot blocks. -/
def c1Callbacks : List Callback :=
  [{ fraction := 1/2, blockIndex := 15, blockTime := 15 }]

/-- A trade of the last day in which asset A is the quote asset, with a
nonzero normalized quote quantity. -/
def c3Trade : Trade :=
  { baseAsset := "B", quoteAsset := "A", blockIndex := 1, blockTime := 10,
    unitPrice := 2, baseQuantityNormalized := 3, quoteQuantityNormalized := 5 }

/-- Registry for the price-synthesis scenarios. -/
def c4Registry : List String := ["XCP", "A"]

/-- Three trades of the canonical pair XCP/A at unit prices 100, 110, 105,
oldest to newest. -/
def c4Trades : List Trade :=
  [{ baseAsset := "XCP", quoteAsset := "A", blockIndex := 1, blockTime := 100,
     unitPrice := 100, baseQuantityNormalized := 1, quoteQuantityNormalized := 100 },
   { baseAsset := "XCP", quoteAsset := "A", blockIndex := 2, blockTime := 200,
     unitPrice := 110, baseQuantityNormalized := 1, quoteQuantityNormalized := 110 },
   { baseAsset := "XCP", quoteAsset := "A", blockIndex := 3, blockTime := 300,
     unitPrice := 105, baseQuantityNormalized := 1, quoteQuantityNormalized := 105 }]

/-- Seven trades of the pair XCP/A: the oldest six at unit price 50, the
newest at an extreme price. With a requested trade count above six, all
seven are selected but only the oldest six carry weights. -/
def c4TradesSeven : List Trade :=
  [{ baseAsset := "XCP", quoteAsset := "A", blockIndex := 1, blockTime := 100,
     unitPrice := 50, baseQuantityNormalized := 1, quoteQuantityNormalized := 50 },
   { baseAsset := "XCP", quoteAsset := "A", blockIndex := 2, blockTime := 200,
     unitPrice := 50, baseQuantityNormalized := 1, quoteQuantityNormalized := 50 },
   { baseAsset := "XCP", quoteAsset := "A", blockIndex := 3, blockTime := 300,
     unitPrice := 50, baseQuantityNormalized := 1, quoteQuantityNormalized := 50 },
   { baseAsset := "XCP", quoteAsset := "A", blockIndex := 4, blockTime := 400,
     unitPrice := 50, baseQuantityNormalized := 1, quoteQuantityNormalized := 50 },
   { baseAsset := "XCP", quoteAsset := "A", blockIndex := 5, blockTime := 500,
     unitPrice := 50, baseQuantityNormalized := 1, quoteQuantityNormalized := 50 },
   { baseAsset := "XCP", quoteAsset := "A", blockIndex := 6, blockTime := 600,
     unitPrice := 50, baseQuantityNormalized := 1, quoteQuantityNormalized := 50 },
   { baseAsset := "XCP", quoteAsset := "A", blockIndex := 7, blockTime := 700,
     unitPrice := 999999, baseQuantityNormalized := 1,
     quoteQuantityNormalized := 999999 }]

/-- A bid-side order (it gives the quote asset) with zero give_quantity but
nonzero get_quantity: it violates the claimed all-nonzero precondition, yet
make_book divides only by its get_quantity. -/
def c10Order : Order :=
  { giveAsset := "QUOTE", giveQuantity := 0, getAsset := "BASE",
    getQuantity := 5, giveRemaining := 0, getRemaining := 7,
    feeRequired := 0, feeProvided := 0 }

/-- An order with concrete fee fields, for the fee-matrix witness. -/
def c2Order : Order :=
  { giveAsset := "XCP", giveQuantity := 1, getAsset := "BTC", getQuantity := 1,
    giveRemaining := 1, getRemaining := 1, feeRequired := 3, feeProvided := 4 }

/-- Bid-side orders of the order-book scenario: offers of the quote asset B
for the base asset A at unit prices one half and two fifths. -/
def c5BidOrders : List Order :=
  [{ giveAsset := "B", giveQuantity := 1, getAsset := "A", getQuantity := 2,
     giveRemaining := 1, getRemaining := 10, feeRequired := 0, feeProvided := 0 },
   { giveAsset := "B", giveQuantity := 2, getAsset := "A", getQuantity := 5,
     giveRemaining := 2, getRemaining := 5, feeRequired := 0, feeProvided := 0 }]

/-- Ask-side order of the order-book scenario: an offer of the base asset A
at unit price three fifths. -/
def c5AskOrders : List Order :=
  [{ giveAsset := "A", giveQuantity := 5, getAsset := "B", getQuantity := 3,
     giveRemaining := 8, getRemaining := 5, feeRequired := 0, feeProvided := 0 }]

/-- Two-snapshot log whose second snapshot is tagged locked although the
locked flag did not flip. -/
def c8Raw : List Snapshot :=
  [{ owner := "alice", description := "d", divisible := true, locked := false,
     totalIssued := 1000, totalIssuedNormalized := 1000/100000000,
     changeType := "created", atBlock := 10, atBlockTime := 10 },
   { owner := "alice", description := "d", divisible := true, locked := false,
     totalIssued := 1000, totalIssuedNormalized := 1000/100000000,
     changeType := "locked", atBlock := 20, atBlockTime := 20 }]

theorem rfloor_eq (q : ℚ) : rfloor q = ⌊q⌋ := Rat.floor_def.symm

theorem floor_le_roundHalfEvenInt (q : ℚ) : ⌊q⌋ ≤ roundHalfEvenInt q := by
  unfold roundHalfEvenInt
  simp only [rfloor_eq]
  split_ifs <;> omega

theorem roundHalfEvenInt_le_floor_add_one (q : ℚ) :
    roundHalfEvenInt q ≤ ⌊q⌋ + 1 := by
  unfold roundHalfEvenInt
  simp only [rfloor_eq]
  split_ifs <;> omega

theorem abs_roundHalfEvenInt_sub_le (q : ℚ) :
    |(roundHalfEvenInt q : ℚ) - q| ≤ 1 / 2 := by
  have h1 : (⌊q⌋ : ℚ) ≤ q := Int.floor_le q
  have h2 : q < ⌊q⌋ + 1 := Int.lt_floor_add_one q
  unfold roundHalfEvenInt
  simp only [rfloor_eq]
  split_ifs <;> rw [abs_le] <;> constructor <;> push_cast <;> linarith

theorem roundHalfEvenInt_mono {x y : ℚ} (h : x ≤ y) :
    roundHalfEvenInt x ≤ roundHalfEvenInt y := by
  rcases lt_or_eq_of_le (Int.floor_le_floor h) with hlt | heq
  · have h1 := roundHalfEvenInt_le_floor_add_one x
    have h2 := floor_le_roundHalfEvenInt y
    omega
  · have hfrac : x - (⌊x⌋ : ℚ) ≤ y - (⌊y⌋ : ℚ) := by
      rw [heq]; linarith
    unfold roundHalfEvenInt
    simp only [rfloor_eq]
    rw [heq] at hfrac ⊢
    split_ifs <;> first | omega | linarith

theorem quantize8_mono {x y : ℚ} (h : x ≤ y) : quantize8 x ≤ quantize8 y := by
  unfold quantize8
  have hm : roundHalfEvenInt (x * 100000000) ≤ roundHalfEvenInt (y * 100000000) :=
    roundHalfEvenInt_mono (mul_le_mul_of_nonneg_right h (by norm_num))
  have hc : ((roundHalfEvenInt (x * 100000000) : ℚ)) ≤
      (roundHalfEvenInt (y * 100000000) : ℚ) := Int.cast_le.2 hm
  exact div_le_div_of_nonneg_right hc (by norm_num) |>.trans_eq rfl

theorem abs_quantize8_sub_le (x : ℚ) : |quantize8 x - x| ≤ 1 / 200000000 := by
  have key : quantize8 x - x =
      ((roundHalfEvenInt (x * 100000000) : ℚ) - x * 100000000) / 100000000 := by
    unfold quantize8; ring
  rw [key, abs_div, abs_of_pos (by norm_num : (0:ℚ) < 100000000)]
  have h := abs_roundHalfEvenInt_sub_le (x * 100000000)
  rw [div_le_iff₀ (by norm_num : (0:ℚ) < 100000000)]
  calc |(roundHalfEvenInt (x * 100000000) : ℚ) - x * 100000000| ≤ 1 / 2 := h
    _ = 1 / 200000000 * 100000000 := by norm_num

theorem except_bind_error {ε α β : Type} (msg : ε) (f : α → Except ε β) :
    (Except.error msg >>= f) = Except.error msg := rfl

theorem except_bind_ok {ε α β : Type} (a : α) (f : α → Except ε β) :
    (Except.ok a >>= f) = f a := rfl

theorem zip_map_fst {α β : Type} :
    ∀ (xs : List α) (ys : List β), (xs.zip ys).map Prod.fst = xs.take ys.length
  | [], _ => by simp
  | _ :: _, [] => by simp
  | x :: xs, y :: ys => by
    simp [List.zip_cons_cons, zip_map_fst xs ys]

theorem zip_map_snd {α β : Type} :
    ∀ (xs : List α) (ys : List β), (xs.zip ys).map Prod.snd = ys.take xs.length
  | [], _ => by simp
  | _ :: _, [] => by simp
  | x :: xs, y :: ys => by
    simp [List.zip_cons_cons, zip_map_snd xs ys]

/-- C7: for every valid asset pair and admissible trade count, the price
synthesizer answers with the explicit no-data sentinel (ok none, surfaced to
the caller of get_market_price_summary as False) exactly when the ten-day
lookback window contains no trades of the canonical pair; with any trade in
the window it returns a populated summary, so a numeric market price of 0 is
always distinct from the no-data result. -/
theorem c7_no_data_sentinel (registry : List String) (trades : List Trade)
    (asset1 asset2 : String) (minTradeTime : ℕ) (withLastTrades : ℕ)
    (hw : withLastTrades ≤ 30)
    (hb : (assetsToAssetPair asset1 asset2).1 ∈ registry)
    (hq : (assetsToAssetPair asset1 asset2).2 ∈ registry) :
    marketPriceSummary registry trades asset1 asset2 minTradeTime withLastTrades
        = .ok none ↔
      windowTrades trades (assetsToAssetPair asset1 asset2).1
        (assetsToAssetPair asset1 asset2).2 minTradeTime = [] := by
  unfold marketPriceSummary
  rw [if_neg (by omega), if_neg (not_not_intro ⟨hb, hq⟩)]
  by_cases hf : windowTrades trades (assetsToAssetPair asset1 asset2).1
      (assetsToAssetPair asset1 asset2).2 minTradeTime = []
  · simp [hf]
  · simp [hf]

/-- C7 witness: with an empty trade collection the sentinel is returned. -/
theorem c7_no_data_sentinel_witness :
    (0 : ℕ) ≤ 30 ∧
    (assetsToAssetPair "A" "XCP").1 ∈ ["XCP", "A"] ∧
    (assetsToAssetPair "A" "XCP").2 ∈ ["XCP", "A"] ∧
    (marketPriceSummary ["XCP", "A"] [] "A" "XCP" 0 0 = .ok none ↔
      windowTrades [] (assetsToAssetPair "A" "XCP").1
        (assetsToAssetPair "A" "XCP").2 0 = []) :=
  ⟨by decide, by decide, by decide,
   c7_no_data_sentinel ["XCP", "A"] [] "A" "XCP" 0 0 (by decide) (by decide)
     (by decide)⟩

/-- C6 counterexample: a present but zero price yields an absent market cap,
not the quantized quotient the claim promises for every present price. -/
theorem c6_counterexample :
    marketCapIn 100 (some 0) = none ∧
    marketCapIn 100 (some 0) ≠ some (quantize8 (100 / 0)) := by
  refine ⟨rfl, by decide⟩

/-- C6 as amended: whenever the price is present and nonzero, the market cap
is the quantized quotient of the normalized total issuance by the price, so
cap times price differs from the total issuance by at most half an ulp of
the 8-digit grid scaled by the price; the cap is absent when the price is
absent or zero. -/
theorem c6_market_cap (totalIssuedNormalized : ℚ) (p : ℚ) (hp : p ≠ 0) :
    marketCapIn totalIssuedNormalized (some p)
        = some (quantize8 (totalIssuedNormalized / p)) ∧
    |quantize8 (totalIssuedNormalized / p) * p - totalIssuedNormalized|
        ≤ |p| / 200000000 ∧
    marketCapIn totalIssuedNormalized none = none ∧
    marketCapIn totalIssuedNormalized (some 0) = none := by
  refine ⟨by simp [marketCapIn, hp], ?_, rfl, by simp [marketCapIn]⟩
  have h := abs_quantize8_sub_le (totalIssuedNormalized / p)
  have key : quantize8 (totalIssuedNormalized / p) * p - totalIssuedNormalized
      = (quantize8 (totalIssuedNormalized / p) - totalIssuedNormalized / p) * p := by
    rw [sub_mul, div_mul_cancel₀ _ hp]
  rw [key, abs_mul]
  calc |quantize8 (totalIssuedNormalized / p) - totalIssuedNormalized / p| * |p|
      ≤ 1 / 200000000 * |p| := mul_le_mul_of_nonneg_right h (abs_nonneg p)
    _ = |p| / 200000000 := by ring

/-- C6 witness: the amended statement at supply 100 and price 2. -/
theorem c6_market_cap_witness :
    (2 : ℚ) ≠ 0 ∧
    (marketCapIn 100 (some 2) = some (quantize8 (100 / 2)) ∧
     |quantize8 ((100 : ℚ) / 2) * 2 - 100| ≤ |(2 : ℚ)| / 200000000 ∧
     marketCapIn 100 none = none ∧
     marketCapIn 100 (some 0) = none) :=
  ⟨by norm_num, c6_market_cap 100 2 (by norm_num)⟩

/-- C3: evaluation of the 24h volume aggregation at a trade in which the
asset is the quote asset. The as-quote branch of the source sums the group
operand written without the field-reference dollar prefix, so the trade's
normalized quote quantity is dropped from the volume while the claim of the
spec includes it; the counts agree. -/
theorem c3_quote_volume_dropped :
    vols24h [c3Trade] "A" 0 = (0, 1) ∧
    vols24hClaimed [c3Trade] "A" 0 = (5, 1) ∧
    vols24h [c3Trade] "A" 0 ≠ vols24hClaimed [c3Trade] "A" 0 :=
  ⟨by decide, by decide, by decide⟩

/-- C2: the four-case BTC fee filter of get_order_book keeps exactly the
orders the claimed matrix describes, for every non-BTC counterasset, every
pair of caller fee preferences and every order. -/
theorem c2_fee_filter_matrix (q : String) (hq : q ≠ "BTC") (fp fr : ℚ)
    (o : Order) : feeMatrixProp q fp fr o := by
  unfold feeMatrixProp btcFeeClauses clausesKeep clauseKeeps
  simp [hq, denormalizeQuantity]

/-- C2 witness: the fee matrix at the counterasset XCP, caller fees 1 and 2,
and a concrete order. -/
theorem c2_fee_filter_matrix_witness :
    "XCP" ≠ "BTC" ∧ feeMatrixProp "XCP" 1 2 c2Order :=
  ⟨by decide, c2_fee_filter_matrix "XCP" (by decide) 1 2 c2Order⟩

/-- C4: the price synthesizer on the scenario of three trades at unit prices
100, 110 and 105 (oldest to newest) returns exactly the 8-digit half-even
rounding of the weighted average with weights 1, 0.9 and 0.72 applied oldest
first, which is 104.80916031; on seven selected trades whose oldest six all
price at 50, the extreme newest trade does not contribute, so at most six
trades enter the average; and in general zipping against the fixed weight
table pairs prices positionally, truncating to the first six prices of the
oldest-first slice. -/
theorem c4_weighted_price :
    marketPriceSummary c4Registry c4Trades "A" "XCP" 0 0 =
      .ok (some
        { marketPrice := quantize8 ((100 * 1 + 110 * (9/10) + 105 * (72/100)) /
            (1 + 9/10 + 72/100)),
          baseAsset := "XCP", quoteAsset := "A", lastTrades := none }) ∧
    quantize8 ((100 * 1 + 110 * (9/10) + 105 * (72/100)) /
        (1 + 9/10 + 72/100)) = 10480916031/100000000 ∧
    (marketPriceSummary c4Registry c4TradesSeven "A" "XCP" 0 30).map
        (Option.map PriceSummary.marketPrice) = .ok (some 50) ∧
    ∀ ps : List ℚ,
      (ps.zip marketPriceDeriveWeights).map Prod.fst = ps.take 6 ∧
      (ps.zip marketPriceDeriveWeights).map Prod.snd =
        marketPriceDeriveWeights.take ps.length := by
  refine ⟨by decide, by decide, by decide, fun ps => ⟨?_, ?_⟩⟩
  · rw [zip_map_fst]; rfl
  · rw [zip_map_snd]

/-- C9: in the asset-info prologue of get_market_info, a reference asset
(BTC or XCP) missing from the registry makes the function fail with the
TypeError raised by assigning the issuance field on the null lookup result,
before the Invalid-asset check is reached; consequently the Invalid-asset
failure can only ever be raised for a non-reference asset. -/
theorem c9_reference_assets (registry : List (String × AssetInfo))
    (asset : String) (btcSupply xcpSupply : ℤ)
    (href : asset = "BTC" ∨ asset = "XCP")
    (hmiss : (registry.find? fun p => decide (p.1 = asset)) = none) :
    marketInfoAssetLookup registry asset btcSupply xcpSupply
        = .error .typeError ∧
    ∀ (registry2 : List (String × AssetInfo)) (asset2 : String) (b2 x2 : ℤ),
      marketInfoAssetLookup registry2 asset2 b2 x2
          = .error (.invalidAsset asset2) →
        asset2 ≠ "BTC" ∧ asset2 ≠ "XCP" := by
  constructor
  · rcases href with h | h <;> subst h <;> simp [marketInfoAssetLookup, hmiss]
  · intro r2 a2 b2 x2 hres
    by_cases hB : a2 = "BTC"
    · subst hB
      exfalso
      cases hf : (r2.find? fun p => decide (p.1 = "BTC")) with
      | none => simp [marketInfoAssetLookup, hf] at hres
      | some a => simp [marketInfoAssetLookup, hf] at hres
    · by_cases hX : a2 = "XCP"
      · subst hX
        exfalso
        cases hf : (r2.find? fun p => decide (p.1 = "XCP")) with
        | none => simp [marketInfoAssetLookup, hf] at hres
        | some a => simp [marketInfoAssetLookup, hf] at hres
      · exact ⟨hB, hX⟩

/-- C9 witness: BTC against an empty registry. -/
theorem c9_reference_assets_witness :
    ("BTC" = "BTC" ∨ "BTC" = "XCP") ∧
    (List.find? (fun p => decide (p.1 = "BTC"))
        ([] : List (String × AssetInfo))) = none ∧
    (marketInfoAssetLookup [] "BTC" 5 7 = .error .typeError ∧
     ∀ (registry2 : List (String × AssetInfo)) (asset2 : String) (b2 x2 : ℤ),
       marketInfoAssetLookup registry2 asset2 b2 x2
           = .error (.invalidAsset asset2) →
         asset2 ≠ "BTC" ∧ asset2 ≠ "XCP") :=
  ⟨Or.inl rfl, rfl, c9_reference_assets [] "BTC" 5 7 (Or.inl rfl) rfl⟩

theorem diffStep_error_iff (prev cur : Snapshot) :
    diffMismatch prev cur = true ↔ ∃ msg, diffStep prev cur = .error msg := by
  unfold diffMismatch diffStep
  split_ifs with h1 h2 h3 <;> simp_all

theorem replayDiffs_error (prev : Snapshot) (rest : List Snapshot)
    (h : ((prev :: rest).zip rest).any (fun p => diffMismatch p.1 p.2) = true) :
    ∃ msg, replayDiffs prev rest = .error msg := by
  induction rest generalizing prev with
  | nil => simp at h
  | cons cur rest ih =>
    rw [List.zip_cons_cons, List.any_cons, Bool.or_eq_true] at h
    rcases h with h | h
    · obtain ⟨msg, hd⟩ := (diffStep_error_iff prev cur).1 h
      exact ⟨msg, by simp [replayDiffs, hd, except_bind_error]⟩
    · cases hds : diffStep prev cur with
      | error msg => exact ⟨msg, by simp [replayDiffs, hds, except_bind_error]⟩
      | ok e =>
        obtain ⟨msg, hm⟩ := ih cur h
        exact ⟨msg, by
          simp [replayDiffs, hds, hm, except_bind_ok, except_bind_error]⟩

/-- C8: whenever the snapshot log violates its declared change tags at any
position, get_asset_history fails with an assertion error instead of
returning a timeline, whatever the callback feed and requested order. -/
theorem c8_mismatch_fails (raw : List Snapshot) (callbacks : List Callback)
    (reverseOrder : Bool) (h : historyMismatch raw = true) :
    ∃ msg, getAssetHistory raw callbacks reverseOrder = .error msg := by
  have hcomp : ∃ msg, composeHistory raw = .error msg := by
    unfold historyMismatch at h
    cases raw with
    | nil => simp at h
    | cons s rest =>
      rw [Bool.or_eq_true] at h
      rcases h with h | h
      · simp only [decide_eq_true_eq] at h
        exact ⟨"assert first snapshot created", by simp [composeHistory, h]⟩
      · by_cases hc : s.changeType = "created"
        · obtain ⟨msg, hm⟩ := replayDiffs_error s rest (by simpa using h)
          exact ⟨msg, by simp [composeHistory, hc, hm, except_bind_error]⟩
        · exact ⟨"assert first snapshot created", by simp [composeHistory, hc]⟩
  obtain ⟨msg, hm⟩ := hcomp
  exact ⟨msg, by simp [getAssetHistory, hm, except_bind_error]⟩

/-- C8 witness: a log whose second snapshot is tagged locked with an
unchanged locked flag makes the reconstruction fail. -/
theorem c8_mismatch_fails_witness :
    historyMismatch c8Raw = true ∧
    ∃ msg, getAssetHistory c8Raw [] false = .error msg :=
  ⟨by decide, c8_mismatch_fails c8Raw [] false (by decide)⟩

/-- C1: evaluation of get_asset_history on two valid snapshots (created at
block 10, locked at block 20) and one callback at block 15. The merge loop
consumes the locked diff event's iteration to splice the callback, so the
timeline has only two events, not the three the claim requires, and the
locked event is missing entirely. -/
theorem c1_callback_merge_drops_event :
    getAssetHistory c1Raw c1Callbacks false =
      .ok [.created "alice" "d" true false 1000 (1000/100000000) 10 10000,
           .calledBack 50 15 15000] ∧
    (getAssetHistory c1Raw c1Callbacks false).map List.length = .ok 2 ∧
    c1Raw.length + c1Callbacks.length = 3 :=
  ⟨by decide, by decide, by decide⟩

theorem orderEntry_ok_iff (baseAsset : String) (bd : Bool) (o : Order) :
    (∃ pe, orderEntry baseAsset bd o = .ok pe) ↔
      ((o.giveAsset = baseAsset → o.giveQuantity ≠ 0) ∧
       (o.giveAsset ≠ baseAsset → o.getQuantity ≠ 0)) := by
  unfold orderEntry
  split_ifs with h1 h2 h3 <;> simp_all

theorem buildBook_ok_iff (baseAsset : String) (bd : Bool) (orders : List Order) :
    ∀ book : List BookEntry,
    (∃ b, buildBook baseAsset bd orders book = .ok b) ↔
      ∀ o ∈ orders,
        (o.giveAsset = baseAsset → o.giveQuantity ≠ 0) ∧
        (o.giveAsset ≠ baseAsset → o.getQuantity ≠ 0) := by
  induction orders with
  | nil => intro book; simp [buildBook]
  | cons o os ih =>
    intro book
    cases hoe : orderEntry baseAsset bd o with
    | error msg =>
      have hno : ¬ ((o.giveAsset = baseAsset → o.giveQuantity ≠ 0) ∧
          (o.giveAsset ≠ baseAsset → o.getQuantity ≠ 0)) := by
        rw [← orderEntry_ok_iff baseAsset bd o]
        rintro ⟨pe, hpe⟩
        rw [hoe] at hpe
        cases hpe
      constructor
      · rintro ⟨b, hb⟩
        unfold buildBook at hb
        rw [hoe, except_bind_error] at hb
        cases hb
      · intro hall
        exact absurd (hall o (List.mem_cons_self o os)) hno
    | ok pe =>
      have ho := (orderEntry_ok_iff baseAsset bd o).1 ⟨pe, hoe⟩
      have hstep : buildBook baseAsset bd (o :: os) book =
          buildBook baseAsset bd os (insertOrderLevel book pe.1 pe.2) := by
        simp only [buildBook]
        rw [hoe, except_bind_ok]
      constructor
      · rintro ⟨b, hb⟩
        intro o' ho'
        rcases List.mem_cons.1 ho' with rfl | hmem
        · exact ho
        · rw [hstep] at hb
          exact ((ih (insertOrderLevel book pe.1 pe.2)).1 ⟨b, hb⟩) o' hmem
      · intro hall
        obtain ⟨b, hb⟩ := (ih (insertOrderLevel book pe.1 pe.2)).2
          (fun o' h' => hall o' (List.mem_cons_of_mem _ h'))
        exact ⟨b, hstep.trans hb⟩

theorem makeBook_ok_iff (orders : List Order) (isBid : Bool)
    (baseAsset : String) (bd : Bool) :
    (∃ b, makeBook orders isBid baseAsset bd = .ok b) ↔
      ∃ b, buildBook baseAsset bd orders [] = .ok b := by
  unfold makeBook
  cases h : buildBook baseAsset bd orders [] with
  | error msg => simp [except_bind_error]
  | ok b => simp [except_bind_ok]

theorem getOrderBook_ok_iff (bidOrders askOrders : List Order)
    (baseAsset : String) (bd : Bool) :
    (∃ res, getOrderBook bidOrders askOrders baseAsset bd = .ok res) ↔
      ((∃ b, makeBook bidOrders true baseAsset bd = .ok b) ∧
       (∃ b, makeBook askOrders false baseAsset bd = .ok b)) := by
  unfold getOrderBook
  cases h1 : makeBook bidOrders true baseAsset bd with
  | error m => simp [except_bind_error]
  | ok bb =>
    cases h2 : makeBook askOrders false baseAsset bd with
    | error m => simp [except_bind_ok, except_bind_error]
    | ok ab => simp [except_bind_ok]

/-- C10 counterexample: an order that gives the quote asset with zero
give_quantity violates the claimed all-nonzero precondition, yet
get_order_book succeeds on it, because that branch divides by get_quantity
only. -/
theorem c10_counterexample :
    ¬ (c10Order.giveQuantity ≠ 0 ∧ c10Order.getQuantity ≠ 0) ∧
    getOrderBook [c10Order] [] "BASE" false =
      .ok { baseBidBook := [⟨⟨0, 7, 1⟩, 7⟩], baseAskBook := [],
            bidDepth := 7, askDepth := 0, bidAskSpread := 0,
            bidAskMedian := 0 } :=
  ⟨by decide, by decide⟩

/-- C10 as amended: get_order_book is total exactly when every merged order
that gives the base asset has nonzero give_quantity and every merged order
that gives another asset has nonzero get_quantity; the claimed precondition
(both quantities nonzero on every order) is sufficient but not necessary. -/
theorem c10_totality_condition (bidOrders askOrders : List Order)
    (baseAsset : String) (baseDivisible : Bool) :
    (∃ res, getOrderBook bidOrders askOrders baseAsset baseDivisible
        = .ok res) ↔
      ∀ o ∈ bidOrders ++ askOrders,
        (o.giveAsset = baseAsset → o.giveQuantity ≠ 0) ∧
        (o.giveAsset ≠ baseAsset → o.getQuantity ≠ 0) := by
  rw [getOrderBook_ok_iff, makeBook_ok_iff, makeBook_ok_iff,
    buildBook_ok_iff baseAsset baseDivisible bidOrders [],
    buildBook_ok_iff baseAsset baseDivisible askOrders []]
  constructor
  · rintro ⟨hb, ha⟩ o ho
    rcases List.mem_append.1 ho with h | h
    · exact hb o h
    · exact ha o h
  · intro hall
    exact ⟨fun o h => hall o (List.mem_append.2 (Or.inl h)),
           fun o h => hall o (List.mem_append.2 (Or.inr h))⟩

theorem normalizeQuantity_nonneg {q : ℤ} (h : 0 ≤ q) (d : Bool) :
    0 ≤ normalizeQuantity q d := by
  unfold normalizeQuantity
  split_ifs
  · exact div_nonneg (by exact_mod_cast h) (by norm_num)
  · exact_mod_cast h

theorem orderEntry_snd_nonneg {baseAsset : String} {bd : Bool} {o : Order}
    {pe : ℚ × ℚ} (hok : orderEntry baseAsset bd o = .ok pe)
    (h1 : 0 ≤ o.giveRemaining) (h2 : 0 ≤ o.getRemaining) : 0 ≤ pe.2 := by
  unfold orderEntry at hok
  split_ifs at hok
  · cases hok; exact normalizeQuantity_nonneg h1 bd
  · cases hok; exact normalizeQuantity_nonneg h2 bd

theorem insertOrderLevel_price_mem {x p q : ℚ} :
    ∀ {book : List BookEntry},
    x ∈ (insertOrderLevel book p q).map BookEntry.unitPrice →
    x ∈ book.map BookEntry.unitPrice ∨ x = p := by
  intro book
  induction book with
  | nil => intro h; right; simpa [insertOrderLevel] using h
  | cons e rest ih =>
    intro h
    by_cases hep : e.unitPrice = p
    · simp only [insertOrderLevel, if_pos hep, List.map_cons, List.mem_cons] at h
      rcases h with h | h
      · left; simp [h]
      · left; simp [h]
    · simp only [insertOrderLevel, if_neg hep, List.map_cons, List.mem_cons] at h
      rcases h with h | h
      · left; simp [h]
      · rcases ih h with hm | hx
        · left
          simp only [List.map_cons, List.mem_cons]
          exact Or.inr hm
        · right; exact hx

theorem insertOrderLevel_price_nodup {p q : ℚ} :
    ∀ {book : List BookEntry},
    (book.map BookEntry.unitPrice).Nodup →
    ((insertOrderLevel book p q).map BookEntry.unitPrice).Nodup := by
  intro book
  induction book with
  | nil => intro _; simp [insertOrderLevel]
  | cons e rest ih =>
    intro h
    simp only [List.map_cons, List.nodup_cons] at h
    obtain ⟨hnotmem, hrest⟩ := h
    by_cases hep : e.unitPrice = p
    · simp only [insertOrderLevel, if_pos hep, List.map_cons, List.nodup_cons]
      exact ⟨hnotmem, hrest⟩
    · simp only [insertOrderLevel, if_neg hep, List.map_cons, List.nodup_cons]
      refine ⟨?_, ih hrest⟩
      intro hmem
      rcases insertOrderLevel_price_mem hmem with hm | hx
      · exact hnotmem hm
      · exact hep hx

theorem insertOrderLevel_quantity_nonneg {p q : ℚ} (hq : 0 ≤ q) :
    ∀ {book : List BookEntry},
    (∀ e ∈ book, 0 ≤ e.quantity) →
    ∀ e ∈ insertOrderLevel book p q, 0 ≤ e.quantity := by
  intro book
  induction book with
  | nil =>
    intro _ e he
    simp only [insertOrderLevel, List.mem_singleton] at he
    subst he
    exact hq
  | cons f rest ih =>
    intro hb e he
    by_cases hfp : f.unitPrice = p
    · simp only [insertOrderLevel, if_pos hfp] at he
      rcases List.mem_cons.1 he with rfl | hmem
      · have hf := hb f (List.mem_cons_self f rest)
        simpa using add_nonneg hf hq
      · exact hb e (List.mem_cons_of_mem f hmem)
    · simp only [insertOrderLevel, if_neg hfp] at he
      rcases List.mem_cons.1 he with rfl | hmem
      · exact hb e (List.mem_cons_self e rest)
      · exact ih (fun x hx => hb x (List.mem_cons_of_mem f hx)) e hmem

theorem buildBook_invariant (baseAsset : String) (bd : Bool) :
    ∀ (orders : List Order) (book b : List BookEntry),
    buildBook baseAsset bd orders book = .ok b →
    (∀ o ∈ orders, 0 ≤ o.giveRemaining ∧ 0 ≤ o.getRemaining) →
    (book.map BookEntry.unitPrice).Nodup →
    (∀ e ∈ book, 0 ≤ e.quantity) →
    (b.map BookEntry.unitPrice).Nodup ∧ ∀ e ∈ b, 0 ≤ e.quantity := by
  intro orders
  induction orders with
  | nil =>
    intro book b hok _ hn hq
    have : book = b := by simpa [buildBook] using hok
    subst this
    exact ⟨hn, hq⟩
  | cons o os ih =>
    intro book b hok hrem hn hq
    cases hoe : orderEntry baseAsset bd o with
    | error m =>
      simp only [buildBook] at hok
      rw [hoe, except_bind_error] at hok
      cases hok
    | ok pe =>
      simp only [buildBook] at hok
      rw [hoe, except_bind_ok] at hok
      have hrem0 := hrem o (List.mem_cons_self o os)
      exact ih _ b hok (fun o' h' => hrem o' (List.mem_cons_of_mem _ h'))
        (insertOrderLevel_price_nodup hn)
        (insertOrderLevel_quantity_nonneg
          (orderEntry_snd_nonneg hoe hrem0.1 hrem0.2) hq)

theorem pairwise_and_of {α : Type} {R S : α → α → Prop} :
    ∀ {l : List α}, l.Pairwise R → l.Pairwise S →
    l.Pairwise fun a b => R a b ∧ S a b := by
  intro l
  induction l with
  | nil => intro _ _; exact List.Pairwise.nil
  | cons a t ih =>
    intro hR hS
    rw [List.pairwise_cons] at hR hS ⊢
    exact ⟨fun b hb => ⟨hR.1 b hb, hS.1 b hb⟩, ih hR.2 hS.2⟩

theorem makeBook_props (orders : List Order) (isBid : Bool)
    (baseAsset : String) (bd : Bool) (b : List BookEntry)
    (hok : makeBook orders isBid baseAsset bd = .ok b)
    (hrem : ∀ o ∈ orders, 0 ≤ o.giveRemaining ∧ 0 ≤ o.getRemaining) :
    (if isBid then b.Pairwise fun x y => y.unitPrice < x.unitPrice
     else b.Pairwise fun x y => x.unitPrice < y.unitPrice) ∧
    ∀ e ∈ b, 0 ≤ e.quantity := by
  unfold makeBook at hok
  cases hbb : buildBook baseAsset bd orders [] with
  | error m => rw [hbb, except_bind_error] at hok; cases hok
  | ok built =>
    rw [hbb, except_bind_ok] at hok
    obtain ⟨hnodup, hnonneg⟩ := buildBook_invariant baseAsset bd orders [] built
      hbb hrem (by simp) (by simp)
    have hb := Except.ok.inj hok
    cases isBid with
    | true =>
      rw [if_pos rfl] at hb ⊢
      subst hb
      constructor
      · have hsorted : (built.insertionSort priceGE).Pairwise priceGE :=
          List.sorted_insertionSort priceGE built
        have hperm := List.perm_insertionSort priceGE built
        have hnodup' : ((built.insertionSort priceGE).map
            BookEntry.unitPrice).Nodup :=
          ((hperm.map BookEntry.unitPrice).nodup_iff).2 hnodup
        have hne := List.pairwise_map.1 hnodup'
        exact (pairwise_and_of hsorted hne).imp
          (fun h => lt_of_le_of_ne h.1 (Ne.symm h.2))
      · intro e he
        exact hnonneg e ((List.perm_insertionSort priceGE built).mem_iff.1 he)
    | false =>
      rw [if_neg Bool.false_ne_true] at hb ⊢
      subst hb
      constructor
      · have hsorted : (built.insertionSort priceLE).Pairwise priceLE :=
          List.sorted_insertionSort priceLE built
        have hperm := List.perm_insertionSort priceLE built
        have hnodup' : ((built.insertionSort priceLE).map
            BookEntry.unitPrice).Nodup :=
          ((hperm.map BookEntry.unitPrice).nodup_iff).2 hnodup
        have hne := List.pairwise_map.1 hnodup'
        exact (pairwise_and_of hsorted hne).imp
          (fun h => lt_of_le_of_ne h.1 h.2)
      · intro e he
        exact hnonneg e ((List.perm_insertionSort priceLE built).mem_iff.1 he)

theorem attachDepth_map_entry : ∀ (acc : ℚ) (l : List BookEntry),
    (attachDepth acc l).map DepthEntry.entry = l
  | _, [] => rfl
  | acc, e :: rest => by
    simp [attachDepth, attachDepth_map_entry (acc + e.quantity) rest]

theorem attachDepth_map_depth : ∀ (acc : ℚ) (l : List BookEntry),
    (attachDepth acc l).map DepthEntry.depth =
      (runningSums acc (l.map BookEntry.quantity)).map quantize8
  | _, [] => rfl
  | acc, e :: rest => by
    simp [attachDepth, runningSums, attachDepth_map_depth (acc + e.quantity) rest]

theorem attachDepth_chain : ∀ (acc : ℚ) (l : List BookEntry),
    (∀ e ∈ l, 0 ≤ e.quantity) →
    (attachDepth acc l).Chain' fun a b => a.depth ≤ b.depth
  | _, [], _ => List.chain'_nil
  | _, [e], _ => List.chain'_singleton _
  | acc, e :: f :: t, h => by
    have htail := attachDepth_chain (acc + e.quantity) (f :: t)
      (fun x hx => h x (List.mem_cons_of_mem e hx))
    have hstep : quantize8 (acc + e.quantity) ≤
        quantize8 (acc + e.quantity + f.quantity) :=
      quantize8_mono (by
        have hf := h f (List.mem_cons_of_mem e (List.mem_cons_self f t))
        linarith)
    show List.Chain' _
      (⟨e, quantize8 (acc + e.quantity)⟩ ::
        ⟨f, quantize8 (acc + e.quantity + f.quantity)⟩ ::
        attachDepth (acc + e.quantity + f.quantity) t)
    exact List.Chain'.cons hstep htail

/-- C5: every successful get_order_book result, over orders with non-negative
remaining quantities, lists bid levels strictly descending and ask levels
strictly ascending by unit price, carries per-level depths that are exactly
the quantized running sums of the level quantities and never decrease along
traversal, and derives the spread and median from the best levels with the
zero defaults for empty sides. -/
theorem c5_order_book_invariants (bidOrders askOrders : List Order)
    (baseAsset : String) (baseDivisible : Bool) (res : OrderBookResult)
    (hres : getOrderBook bidOrders askOrders baseAsset baseDivisible = .ok res)
    (hbid : ∀ o ∈ bidOrders, 0 ≤ o.giveRemaining ∧ 0 ≤ o.getRemaining)
    (hask : ∀ o ∈ askOrders, 0 ≤ o.giveRemaining ∧ 0 ≤ o.getRemaining) :
    orderBookProps res := by
  unfold getOrderBook at hres
  cases hb : makeBook bidOrders true baseAsset baseDivisible with
  | error m => rw [hb, except_bind_error] at hres; cases hres
  | ok bb =>
    cases ha : makeBook askOrders false baseAsset baseDivisible with
    | error m =>
      rw [hb, except_bind_ok, ha, except_bind_error] at hres
      cases hres
    | ok ab =>
      rw [hb, except_bind_ok, ha, except_bind_ok] at hres
      have hres' := Except.ok.inj hres
      subst hres'
      obtain ⟨hbsort, hbq⟩ :=
        makeBook_props bidOrders true baseAsset baseDivisible bb hb hbid
      obtain ⟨hasort, haq⟩ :=
        makeBook_props askOrders false baseAsset baseDivisible ab ha hask
      rw [if_pos rfl] at hbsort
      rw [if_neg Bool.false_ne_true] at hasort
      unfold orderBookProps strictDescByPrice strictAscByPrice depthCorrect
        depthsMono
      dsimp only
      refine ⟨?_, ?_, ?_, ?_, ?_, ?_, ?_, ?_⟩
      · have h1 : ((attachDepth 0 bb).map DepthEntry.entry).Pairwise
            (fun x y => y.unitPrice < x.unitPrice) := by
          rw [attachDepth_map_entry]; exact hbsort
        exact List.Pairwise.of_map DepthEntry.entry (fun _ _ h => h) h1
      · have h1 : ((attachDepth 0 ab).map DepthEntry.entry).Pairwise
            (fun x y => x.unitPrice < y.unitPrice) := by
          rw [attachDepth_map_entry]; exact hasort
        exact List.Pairwise.of_map DepthEntry.entry (fun _ _ h => h) h1
      · rw [attachDepth_map_depth]
        have h1 : (attachDepth 0 bb).map (fun d => d.entry.quantity) =
            bb.map BookEntry.quantity := by
          rw [show (fun d : DepthEntry => d.entry.quantity) =
              BookEntry.quantity ∘ DepthEntry.entry from rfl,
            ← List.map_map, attachDepth_map_entry]
        rw [h1]
      · rw [attachDepth_map_depth]
        have h1 : (attachDepth 0 ab).map (fun d => d.entry.quantity) =
            ab.map BookEntry.quantity := by
          rw [show (fun d : DepthEntry => d.entry.quantity) =
              BookEntry.quantity ∘ DepthEntry.entry from rfl,
            ← List.map_map, attachDepth_map_entry]
        rw [h1]
      · exact attachDepth_chain 0 bb hbq
      · exact attachDepth_chain 0 ab haq
      · cases ab with
        | nil => cases bb <;> simp [attachDepth]
        | cons a at' =>
          cases bb with
          | nil => simp [attachDepth]
          | cons b bt => simp [attachDepth]
      · cases ab with
        | nil => simp [attachDepth]
        | cons a at' => cases bb <;> simp [attachDepth]

/-- C5 witness: the spec scenario with bid levels at prices one half and two
fifths and one ask level at three fifths. -/
theorem c5_order_book_invariants_witness :
    getOrderBook c5BidOrders c5AskOrders "A" false =
      .ok { baseBidBook := [⟨⟨1/2, 10, 1⟩, 10⟩, ⟨⟨2/5, 5, 1⟩, 15⟩],
            baseAskBook := [⟨⟨3/5, 8, 1⟩, 8⟩],
            bidDepth := 15, askDepth := 8,
            bidAskSpread := 1/10, bidAskMedian := 11/20 } ∧
    (∀ o ∈ c5BidOrders, 0 ≤ o.giveRemaining ∧ 0 ≤ o.getRemaining) ∧
    (∀ o ∈ c5AskOrders, 0 ≤ o.giveRemaining ∧ 0 ≤ o.getRemaining) ∧
    orderBookProps
      { baseBidBook := [⟨⟨1/2, 10, 1⟩, 10⟩, ⟨⟨2/5, 5, 1⟩, 15⟩],
        baseAskBook := [⟨⟨3/5, 8, 1⟩, 8⟩],
        bidDepth := 15, askDepth := 8,
        bidAskSpread := 1/10, bidAskMedian := 11/20 } :=
  ⟨by decide, by decide, by decide,
   c5_order_book_invariants c5BidOrders c5AskOrders "A" false _ (by decide)
     (by decide) (by decide)⟩

end CW
